import Mathlib

/-!
Shallow embedding of the BlockPatrol RAG core (chunking, chunk-index
gateway, query-intent classification, multi-query retrieval with
deduplication, answer synthesis, and document ingestion), together with
theorems settling the specification claims about it.

Python strings are modelled as `List Char` where character-level
operations (`len`, slicing, `strip`, `replace`) matter, and as Lean
`String` where the text is only carried along.  External collaborators
(BigQuery, the generative model, IPFS, the ledger, the database session)
are modelled as explicit oracles describing one concrete behaviour of
the collaborator during a call.
-/

namespace BlockPatrol

/-! ### Python string primitives -/

/-- The whitespace characters recognised by Python `str.strip()`
(restricted to the ASCII range, which is all the chunker ever inserts). -/
def isPySpace (c : Char) : Bool :=
  c = ' ' || c = '\t' || c = '\n' || c = '\r' || c = '\x0b' || c = '\x0c'

/-- Python `s.strip()`: drop whitespace from both ends. -/
def pyStrip (l : List Char) : List Char :=
  ((l.dropWhile isPySpace).reverse.dropWhile isPySpace).reverse

/-- Python `s[-k:]`: the trailing `k` characters, except that `k = 0`
yields the whole string (`s[-0:] = s[0:] = s`). -/
def pyTailSlice (k : Nat) (l : List Char) : List Char :=
  if k = 0 then l else l.drop (l.length - k)

/-! ### Chunker — `BigQueryPDFChunkStorage.chunk_text`

`sent_tokenize` is an external NLTK collaborator; the chunker is
embedded as a function of the sentence list it returns.  The instance
fields `self.chunk_size` and `self.chunk_overlap` (set to 1000 and 100
in `__init__`) appear as the parameters `N` and `V`. -/

/-- One produced chunk: `{"chunk_id": f"{doc_id}_{chunk_id}", "doc_id": doc_id,
"text": current_chunk.strip()}`. -/
structure PyChunk where
  chunk_id : String
  doc_id : String
  text : List Char
deriving DecidableEq, Repr

/-- The loop body of `chunk_text`: `sents` are the remaining sentences,
`cur` is `current_chunk`, `k` is the running `chunk_id` counter. -/
def chunkLoop (N V : Nat) (docId : String) :
    List (List Char) → List Char → Nat → List PyChunk
  | [], cur, k =>
      if cur = [] then []
      else [⟨docId ++ "_" ++ toString k, docId, pyStrip cur⟩]
  | s :: rest, cur, k =>
      if cur.length + s.length ≤ N then
        chunkLoop N V docId rest (cur ++ s ++ [' ']) k
      else if cur = [] then
        chunkLoop N V docId rest (s ++ [' ']) k
      else
        ⟨docId ++ "_" ++ toString k, docId, pyStrip cur⟩ ::
          chunkLoop N V docId rest
            ((if V < cur.length then pyTailSlice V cur else cur) ++ s ++ [' '])
            (k + 1)

/-- Embedding of `BigQueryPDFChunkStorage.chunk_text`, as a function of the sentence
list produced by `sent_tokenize(text)`. -/
def chunk_text (N V : Nat) (docId : String) (sentences : List (List Char)) :
    List PyChunk :=
  chunkLoop N V docId sentences [] 0

/-! ### Chunk Index Gateway — `BigQueryPDFChunkStorage`

`insert_rows_json` and `query` are external BigQuery collaborators,
modelled by outcome oracles. -/

/-- The special-character list of `search_chunks`, in source order:
`['\\', '?', '!', '"', "'", '+', '-', '=', '&', '|', '>', '<', '(', ')',
'{', '}', '[', ']', '^', '~', '*', ':', '/']`
(the brace and apostrophe characters are written with `\x` escapes). -/
def specialChars : List Char :=
  ['\\', '?', '!', '"', '\x27', '+', '-', '=', '&', '|', '>', '<', '(', ')',
   '\x7b', '\x7d', '[', ']', '^', '~', '*', ':', '/']

/-- Python `s.replace(old, new)` for a single-character `old`. -/
def replaceChar (c : Char) (new : List Char) : List Char → List Char
  | [] => []
  | x :: xs => (if x = c then new else [x]) ++ replaceChar c new xs

/-- The escaping loop of `search_chunks`:
`for char in special_chars: escaped_query = escaped_query.replace(char, f"\\{char}")`. -/
def escapeQuery (s : List Char) : List Char :=
  specialChars.foldl (fun acc c => replaceChar c ['\\', c] acc) s

/-- A row returned by the `SELECT chunk_id, doc_id, filename,
original_pdf_ipfs_path, text` search query, which is also the shape of
the endpoint-level `TextChunk` model built from it. -/
structure TextChunk where
  chunk_id : String
  doc_id : String
  filename : String
  original_pdf_ipfs_path : String
  text : String
deriving DecidableEq, Repr

/-- Behaviour of the external store during one `search_chunks` call: the
query job either raises or yields a row list (already capped by the
store-side `LIMIT`). -/
def StoreBehaviour := String → Nat → Except String (List TextChunk)

/-- Embedding of `BigQueryPDFChunkStorage.search_chunks`: escape the query, run it,
and on any raised error return `[]`. The escaped query is rendered back
to a `String` for the store call. -/
def search_chunks (store : StoreBehaviour) (query : String) (limit : Nat) :
    List TextChunk :=
  match store (String.mk (escapeQuery query.data)) limit with
  | .error _ => []
  | .ok rows => rows

/-- A row as built by `store_chunks_in_bigquery` for `insert_rows_json`. -/
structure InsertRow where
  chunk_id : String
  doc_id : String
  filename : String
  gcs_path : String
  text : List Char
  original_pdf_ipfs_path : String
  pdf_metadata : String
deriving Repr

/-- Behaviour of `insert_rows_json` during one call: either it raises,
or it returns its per-row error list (empty when every row was written). -/
inductive InsertOutcome where
  | raises (e : String)
  | errors (es : List String)

/-- The result dictionary of `store_chunks_in_bigquery`: `success`,
and the optional keys `chunks_count` and `error` (a key is `none` when
the returned dictionary does not contain it). -/
structure StoreResult where
  success : Bool
  chunks_count : Option Nat
  error : Option String
deriving DecidableEq, Repr

/-- Rendering of the error list into the message
`f"BigQuery insert errors: {errors}"`. -/
def formatInsertErrors (es : List String) : String :=
  "BigQuery insert errors: " ++ toString es

/-- The row list built by `store_chunks_in_bigquery` from the chunks. -/
def buildRows (bucket : String) (metadataJson : String) (filename ipfsPath : String)
    (chunks : List PyChunk) : List InsertRow :=
  chunks.map fun chunk =>
    { chunk_id := chunk.chunk_id
      doc_id := chunk.doc_id
      filename := filename
      gcs_path := "gs://" ++ bucket ++ "/" ++ chunk.doc_id ++ "/" ++ chunk.chunk_id ++ ".txt"
      text := chunk.text
      original_pdf_ipfs_path := ipfsPath
      pdf_metadata := metadataJson }

/-- Embedding of `BigQueryPDFChunkStorage.store_chunks_in_bigquery`: build the rows,
call `insert_rows_json`, and fold its outcome into a result dictionary.
Any raised exception is caught and reported as a failure. -/
def store_chunks_in_bigquery (outcome : InsertOutcome) (bucket metadataJson filename ipfsPath : String)
    (chunks : List PyChunk) : StoreResult :=
  match outcome with
  | .raises e => { success := false, chunks_count := none, error := some e }
  | .errors es =>
      let rows := buildRows bucket metadataJson filename ipfsPath chunks
      if es = [] then
        { success := true, chunks_count := some rows.length, error := none }
      else
        { success := false, chunks_count := none, error := some (formatInsertErrors es) }

/-! ### LLM service — `LLMService`

The generative model is an external collaborator.  Each method's single
`generate_content` call is modelled by an outcome oracle; a counter of
`generate_content` invocations is threaded where a claim is about the
number of model calls made. -/

/-- The intent dictionary handled by `analyze_query_intent`: the parsed
JSON object (when it is an object carrying a `"type"` key), with the
optional keys as `Option` fields. -/
structure IntentData where
  type : String
  search_terms : Option String
  cases_to_compare : Option (List String)
  entities_to_track : Option (List String)
deriving DecidableEq, Repr

/-- What the model call inside `analyze_query_intent` produces:
it raises, or its text fails `json.loads`, or it parses to JSON that is
not an object with a `"type"` key (so `intent_data['type']` raises,
caught by the outer handler), or it parses to an intent object. -/
inductive IntentOutcome where
  | raises (e : String)
  | notJson
  | jsonNoType
  | parsed (d : IntentData)
deriving DecidableEq, Repr

/-- Holds exactly on the outcomes where the model output could not be
used as the expected structure. -/
def IntentOutcome.failed : IntentOutcome → Bool
  | .parsed _ => false
  | _ => true

/-- Behaviour of one `LLMService` instance during a request:
availability (`self.model is not None`), the outcome of the
`analyze_query_intent` model call, the outcome of `generate_multi_query`
and `enhance_search_query` calls, and the outcome of the final
`generate_content` on the RAG prompt. -/
structure LLMOracle where
  available : Bool
  intentOutcome : IntentOutcome
  multiOutcome : Except String (List String)
  enhanceOutcome : Except String String
  genOutcome : Except String String

/-- The fallback intent dictionary `{"type": "general", "search_terms": query}`. -/
def fallbackIntent (query : String) : IntentData :=
  { type := "general", search_terms := some query,
    cases_to_compare := none, entities_to_track := none }

/-- Embedding of `LLMService.analyze_query_intent`: unavailable, raising, unparsable
and key-error paths all return the fallback; a parsed intent object is
returned as is, without validating its category. -/
def analyze_query_intent (o : LLMOracle) (query : String) : IntentData :=
  if !o.available then fallbackIntent query
  else
    match o.intentOutcome with
    | .raises _ => fallbackIntent query
    | .notJson => fallbackIntent query
    | .jsonNoType => fallbackIntent query
    | .parsed d => d

/-- The fixed category set the prompt instructs the model to choose from. -/
def validCategories : List String :=
  ["comparison", "pattern", "timeline", "entity", "relationship", "general"]

/-- Embedding of `LLMService.generate_multi_query`: on unavailability, raised errors,
unparsable output or an empty parsed list, fall back to `[query]`. -/
def generate_multi_query (o : LLMOracle) (query : String) : List String :=
  if !o.available then [query]
  else
    match o.multiOutcome with
    | .error _ => [query]
    | .ok qs => if qs.length > 0 then qs else [query]

/-- Embedding of `LLMService.enhance_search_query`: on unavailability or a raised
error, fall back to the original query. -/
def enhance_search_query (o : LLMOracle) (query : String) : String :=
  if !o.available then query
  else
    match o.enhanceOutcome with
    | .error _ => query
    | .ok q => q

/-- A chat turn (`ChatMessage` schema). -/
structure ChatMessage where
  role : String
  content : String
deriving DecidableEq, Repr

/-- Insertion-ordered grouping of chunks by `doc_id`, as the Python
`dict` accumulation in `generate_rag_prompt` produces it. -/
def addToGroups (gs : List (String × List TextChunk)) (c : TextChunk) :
    List (String × List TextChunk) :=
  if gs.any (fun g => g.1 = c.doc_id) then
    gs.map (fun g => if g.1 = c.doc_id then (g.1, g.2 ++ [c]) else g)
  else gs ++ [(c.doc_id, [c])]

/-- The `cases` dictionary of `generate_rag_prompt`. -/
def groupByDoc (chunks : List TextChunk) : List (String × List TextChunk) :=
  chunks.foldl addToGroups []

/-- One `CASE FILE` context section. -/
def contextSection (docId : String) (docChunks : List TextChunk) : String :=
  let filename := match docChunks.head? with
    | some c => c.filename
    | none => "Unknown"
  let combined := String.intercalate "\n\n" (docChunks.map (fun c => c.text))
  "CASE FILE: " ++ filename ++ "\nCASE ID: " ++ docId ++ "\nCONTENT:\n" ++ combined

/-- The rendered conversation-history block (empty when no history). -/
def historyBlock (history : List ChatMessage) : String :=
  if history.length > 0 then
    "\n\nConversation history:\n" ++
      String.intercalate "\n" (history.map (fun m => m.role ++ ": " ++ m.content)) ++
      "\n\n"
  else ""

/-- The intent-specific system-role instruction block. -/
def systemRole (intentType : String) : String :=
  if intentType = "comparison" then
    "You are an advanced case analysis assistant specialized in comparing legal cases. \nWhen analyzing similarities and differences between cases, focus on:\n- Procedural similarities/differences\n- Factual parallels\n- Related entities across cases\n- Similar legal arguments or precedents\n- Timeline alignment or divergence\n- Evidence patterns"
  else if intentType = "pattern" then
    "You are an advanced case analysis assistant specialized in identifying patterns across cases.\nIdentify recurring elements such as:\n- Behavioral patterns of involved parties\n- Procedural similarities\n- Common tactics or methodologies\n- Temporal patterns or sequences\n- Geographic connections\n- Recurring entities or relationships"
  else if intentType = "timeline" || intentType = "relationship" then
    "You are an advanced case analysis assistant specialized in analyzing relationships and chronology.\nFocus on:\n- Chronological sequence of events across cases\n- Connections between entities\n- Cause-effect relationships\n- Network analysis of involved parties\n- Temporal proximity of related events"
  else
    "You are an advanced case analysis assistant specialized in extracting insights from legal case files.\nProvide accurate, concise answers based solely on the case file content."

/-- Embedding of `LLMService.generate_rag_prompt`, returning the prompt together with
the number of `generate_content` calls made while building it (the one
inside `analyze_query_intent`, made exactly when the model is available). -/
def generate_rag_prompt (o : LLMOracle) (query : String) (chunks : List TextChunk)
    (history : List ChatMessage) : String × Nat :=
  let intent := analyze_query_intent o query
  let intentCalls : Nat := if o.available then 1 else 0
  let contextText := String.intercalate "\n\n============================\n\n"
    ((groupByDoc chunks).map (fun g => contextSection g.1 g.2))
  let prompt :=
    systemRole intent.type ++
    "\n\nFormat your response as a professional report on the case file contents.\nUse only the information from the provided case files to answer the question.\nIf you cannot find the answer in the case files, admit that you don't know rather than making up information.\n\n" ++
    historyBlock history ++
    "\nHere are the relevant case file contents:\n\n" ++
    contextText ++
    "\n\nQuestion: " ++ query ++
    "\n\nAnswer:"
  (prompt, intentCalls)

/-- The fixed unavailability message of `generate_response`. -/
def llmUnavailableMsg : String :=
  "LLM service is not available. Please set the GEMINI_API_KEY environment variable."

/-- Embedding of `LLMService.generate_response`, returning the answer together with
the total number of `generate_content` calls made. A raised generation
error is caught and rendered, never propagated. -/
def generate_response (o : LLMOracle) (query : String) (chunks : List TextChunk)
    (history : List ChatMessage) : String × Nat :=
  if !o.available then (llmUnavailableMsg, 0)
  else
    let pr := generate_rag_prompt o query chunks history
    match o.genOutcome with
    | .error e => ("Error generating response: " ++ e, pr.2 + 1)
    | .ok text => (text, pr.2 + 1)

/-! ### Endpoints — `search_document_chunks` and `chat_with_documents`

Both endpoints run the same accumulate-and-deduplicate loop over the
per-query search results (`all_chunks` / `seen_chunk_ids`). -/

/-- The inner deduplication loop: append each chunk of one result list
to the accumulator unless its `chunk_id` was already seen. -/
def dedupAppend : List TextChunk → List String → List TextChunk →
    List TextChunk × List String
  | acc, seen, [] => (acc, seen)
  | acc, seen, c :: cs =>
      if c.chunk_id ∈ seen then dedupAppend acc seen cs
      else dedupAppend (acc ++ [c]) (c.chunk_id :: seen) cs

/-- The full loop over the per-query result lists, starting from
`all_chunks = []`, `seen_chunk_ids = set()`. -/
def mergeResults (results : List (List TextChunk)) : List TextChunk :=
  (results.foldl (fun st chunks => dedupAppend st.1 st.2 chunks) ([], [])).1

/-- The `search_queries` value of `search_document_chunks` when the LLM
service is available (`'search_queries' in locals()` is then true):
multi-query expansion for complex intents, the single enhanced query
otherwise.  When the service is unavailable only `enhanced_query` (the
original query) is bound, modelled as `none`. -/
def searchQueriesOf (o : LLMOracle) (query : String) : Option (List String) :=
  if o.available then
    some (if (analyze_query_intent o query).type ∈ ["comparison", "pattern", "relationship"]
          then generate_multi_query o query
          else [enhance_search_query o query])
  else none

/-- The sequence of `(query, limit)` calls `search_document_chunks`
issues to `bq_storage.search_chunks`: `limit // len(search_queries) + 1`
per expanded query, or the raw `(query, limit)` in the fallback branch. -/
def searchChunkCalls (o : LLMOracle) (query : String) (limit : Nat) :
    List (String × Nat) :=
  match searchQueriesOf o query with
  | some qs => qs.map (fun q => (q, limit / qs.length + 1))
  | none => [(query, limit)]

/-- The chunk list `search_document_chunks` assembles before the final
`[:limit]` truncation: deduplicated merge over the expanded queries, or
the plain single search in the fallback branch. -/
def searchDocumentChunksRaw (store : StoreBehaviour) (o : LLMOracle)
    (query : String) (limit : Nat) : List TextChunk :=
  match searchQueriesOf o query with
  | some qs => mergeResults (qs.map (fun q => search_chunks store q (limit / qs.length + 1)))
  | none => search_chunks store query limit

/-- The response body of `search_document_chunks`: the assembled list
truncated to the requested limit. -/
def searchDocumentChunksResults (store : StoreBehaviour) (o : LLMOracle)
    (query : String) (limit : Nat) : List TextChunk :=
  (searchDocumentChunksRaw store o query limit).take limit

/-- The fixed no-information answer of `chat_with_documents`. -/
def noInfoMsg : String :=
  "I couldn't find any relevant information in the case files to answer your question. Please try rephrasing your question or provide more specific details."

/-- The retrieval stage of `chat_with_documents`: merge the per-query
searches issued with a fixed per-query limit of 3. -/
def chatRetrieve (store : StoreBehaviour) (queries : List String) : List TextChunk :=
  mergeResults (queries.map (fun q => search_chunks store q 3))

/-- The answer-synthesis stage of `chat_with_documents`: with no
retrieved chunks, return the fixed message without calling
`generate_response`; otherwise delegate to it.  The second component
counts the `generate_content` calls made by this stage. -/
def chatAnswerStage (o : LLMOracle) (query : String) (chunks : List TextChunk)
    (history : List ChatMessage) : String × Nat :=
  if chunks = [] then (noInfoMsg, 0)
  else generate_response o query chunks history

/-! ### Ingestion — `create_document`

IPFS, PDF extraction, the Aptos ledger and the BigQuery side storage are
external collaborators, modelled by an oracle of per-call outcomes.  The
database session is modelled as a pending/committed pair of row lists. -/

/-- A `Document` ORM row as constructed by `create_document`. -/
structure DocRow where
  filename : String
  ipfs_hash : String
  transaction_hash : String
  user_id : Nat
  aptos_address : String
  extracted_data : String
deriving DecidableEq, Repr

/-- The database session: rows added but not yet committed, and rows
made durable by `commit`. -/
structure Db where
  pending : List DocRow
  committed : List DocRow
deriving DecidableEq, Repr

/-- Python `db.add(row)`. -/
def Db.add (db : Db) (d : DocRow) : Db :=
  { db with pending := db.pending ++ [d] }

/-- Python `db.commit()`. -/
def Db.commit (db : Db) : Db :=
  { pending := [], committed := db.committed ++ db.pending }

/-- Behaviour of the BigQuery side-storage block inside `create_document`:
`get_raw_text` reports failure (the default result is kept), or some call
in the `try` block raises (caught), or `process_pdf_for_bigquery` returns
a result dictionary. -/
inductive BqPhase where
  | rawTextFailed
  | raises (e : String)
  | returns (success : Bool) (chunksCount : Nat) (error : Option String)

/-- Per-call outcomes of the collaborators of `create_document`. -/
structure IngestOracle where
  ipfs : Except String String
  pdf : Except String String
  chain : Except String String
  bqConfigured : Bool
  bqPhase : BqPhase

/-- The `bigquery_details` entry of the result. -/
structure BqDetails where
  success : Bool
  chunks_count : Option Nat
  error : Option String
deriving DecidableEq, Repr

/-- The result dictionary of `create_document` (only the fields the
claims mention). -/
structure CreateResult where
  success : Bool
  error : Option String
  document : Option DocRow
  bigquery_details : Option BqDetails
deriving DecidableEq, Repr

/-- The value `bigquery_result` holds at the end of the side-storage
block (initialised to `{"success": True, "chunks_count": 0}`). -/
def bigqueryResult (o : IngestOracle) : BqDetails :=
  if o.bqConfigured then
    match o.bqPhase with
    | .rawTextFailed => { success := true, chunks_count := some 0, error := none }
    | .raises e =>
        { success := false, chunks_count := none,
          error := some ("BigQuery storage error: " ++ e) }
    | .returns ok n err =>
        { success := ok, chunks_count := some n, error := err }
  else { success := true, chunks_count := some 0, error := none }

/-- Embedding of `create_document`: IPFS write, PDF extraction and ledger write gate
the primary record; the row is added and committed only after all three
succeed; the BigQuery block runs after the commit and never affects the
committed row or the overall success. -/
def create_document (o : IngestOracle) (db : Db) (userId : Nat)
    (filename : String) (aptosAddress : String) : Db × CreateResult :=
  match o.ipfs with
  | .error e => (db, { success := false, error := some e, document := none, bigquery_details := none })
  | .ok ipfsHash =>
    match o.pdf with
    | .error e => (db, { success := false, error := some e, document := none, bigquery_details := none })
    | .ok extractedJson =>
      match o.chain with
      | .error e => (db, { success := false, error := some e, document := none, bigquery_details := none })
      | .ok txHash =>
        let doc : DocRow :=
          { filename := filename, ipfs_hash := ipfsHash, transaction_hash := txHash,
            user_id := userId, aptos_address := aptosAddress, extracted_data := extractedJson }
        let db1 := (db.add doc).commit
        let bq := bigqueryResult o
        (db1, { success := true, error := none, document := some doc,
                bigquery_details := some bq })

/-! ## Helper lemmas -/

lemma length_dropWhile_le (p : Char → Bool) :
    ∀ l : List Char, (l.dropWhile p).length ≤ l.length := by
  intro l
  induction l with
  | nil => simp
  | cons x xs ih =>
      by_cases h : p x
      · simp [List.dropWhile, h]
        exact Nat.le_succ_of_le ih
      · simp [List.dropWhile, h]

lemma pyStrip_length_le (l : List Char) : (pyStrip l).length ≤ l.length := by
  unfold pyStrip
  calc ((l.dropWhile isPySpace).reverse.dropWhile isPySpace).reverse.length
      = ((l.dropWhile isPySpace).reverse.dropWhile isPySpace).length := by
        exact List.length_reverse _
    _ ≤ (l.dropWhile isPySpace).reverse.length := length_dropWhile_le _ _
    _ = (l.dropWhile isPySpace).length := List.length_reverse _
    _ ≤ l.length := length_dropWhile_le _ _

lemma getLast?_dropWhile (p : Char → Bool) :
    ∀ l : List Char, l.dropWhile p ≠ [] → (l.dropWhile p).getLast? = l.getLast? := by
  intro l
  induction l with
  | nil => intro h; simp [List.dropWhile] at h
  | cons x xs ih =>
      intro h
      by_cases hx : p x
      · rw [List.dropWhile_cons_of_pos hx] at h ⊢
        have hxs : xs ≠ [] := by
          intro he
          rw [he] at h
          simp [List.dropWhile] at h
        obtain ⟨y, ys, rfl⟩ := List.exists_cons_of_ne_nil hxs
        rw [ih h, List.getLast?_cons_cons]
      · rw [List.dropWhile_cons_of_neg hx]

lemma pyStrip_length_lt (l : List Char) (c : Char) (hl : l.getLast? = some c)
    (hc : isPySpace c = true) : (pyStrip l).length < l.length := by
  have hlne : l ≠ [] := by
    intro he; rw [he] at hl; simp at hl
  have hpos : 0 < l.length := List.length_pos.mpr hlne
  unfold pyStrip
  rw [List.length_reverse]
  by_cases hm : l.dropWhile isPySpace = []
  · rw [hm]
    simpa using hpos
  · -- the front-stripped list keeps the final space, so the back strip drops it
    have hlast : (l.dropWhile isPySpace).getLast? = some c := by
      rw [getLast?_dropWhile _ _ hm, hl]
    have hhead : (l.dropWhile isPySpace).reverse.head? = some c := by
      rw [List.head?_reverse, hlast]
    rcases hrev : (l.dropWhile isPySpace).reverse with _ | ⟨a, t⟩
    · rw [hrev] at hhead; simp at hhead
    · rw [hrev] at hhead
      have hac : a = c := by simpa using hhead
      rw [List.dropWhile_cons_of_pos (by rw [hac]; exact hc)]
      have h1 : (t.dropWhile isPySpace).length ≤ t.length := length_dropWhile_le _ _
      have h2 : t.length + 1 = (l.dropWhile isPySpace).length := by
        have hlen := congrArg List.length hrev
        rw [List.length_reverse] at hlen
        simp only [List.length_cons] at hlen
        omega
      have h3 : (l.dropWhile isPySpace).length ≤ l.length := length_dropWhile_le _ _
      omega

lemma getLast?_append_space (a b : List Char) :
    (a ++ b ++ [' ']).getLast? = some ' ' :=
  List.getLast?_concat (a ++ b)

/-! ## C1 — chunk length bound -/

/-- Invariant proof for the chunker loop: if every sentence has length
at most `L`, the buffer stays below `max N (V + L) + 1` characters and
always ends in the space the loop appends, so every emitted (stripped)
chunk text has length at most `max N (V + L)`. -/
lemma chunkLoop_text_bound (N V L : Nat) (docId : String) (hV : 0 < V) :
    ∀ (sents : List (List Char)) (cur : List Char) (k : Nat),
      (∀ s ∈ sents, s.length ≤ L) →
      cur.length ≤ max N (V + L) + 1 →
      (cur = [] ∨ cur.getLast? = some ' ') →
      ∀ ch ∈ chunkLoop N V docId sents cur k, ch.text.length ≤ max N (V + L) := by
  intro sents
  have hNM : N ≤ max N (V + L) := le_max_left _ _
  have hVM : V + L ≤ max N (V + L) := le_max_right _ _
  induction sents with
  | nil =>
      intro cur k _ hlen hend ch hch
      unfold chunkLoop at hch
      by_cases hcur : cur = []
      · simp [hcur] at hch
      · rcases hend with rfl | hend
        · exact absurd rfl hcur
        · rw [if_neg hcur] at hch
          simp only [List.mem_singleton] at hch
          subst hch
          have hst := pyStrip_length_lt cur ' ' hend (by decide)
          show (pyStrip cur).length ≤ max N (V + L)
          omega
  | cons s rest ih =>
      intro cur k hs hlen hend ch hch
      have hsL : s.length ≤ L := hs s (by simp)
      have hrest : ∀ t ∈ rest, t.length ≤ L := fun t ht => hs t (by simp [ht])
      unfold chunkLoop at hch
      by_cases hfit : cur.length + s.length ≤ N
      · rw [if_pos hfit] at hch
        refine ih (cur ++ s ++ [' ']) k hrest ?_ (Or.inr (getLast?_append_space cur s)) ch hch
        have hl : (cur ++ s ++ [' ']).length = cur.length + s.length + 1 := by
          simp [Nat.add_assoc]
        omega
      · rw [if_neg hfit] at hch
        by_cases hcur : cur = []
        · rw [if_pos hcur] at hch
          refine ih (s ++ [' ']) k hrest ?_ ?_ ch hch
          · have hl : (s ++ [' ']).length = s.length + 1 := by simp
            omega
          · right
            have h := getLast?_append_space ([] : List Char) s
            rw [List.nil_append] at h
            exact h
        · rw [if_neg hcur] at hch
          rcases hend with rfl | hend
          · exact absurd rfl hcur
          rcases List.mem_cons.mp hch with hch | hch
          · subst hch
            have hst := pyStrip_length_lt cur ' ' hend (by decide)
            show (pyStrip cur).length ≤ max N (V + L)
            omega
          · have hov : (if V < cur.length then pyTailSlice V cur else cur).length ≤ V := by
              by_cases hvc : V < cur.length
              · rw [if_pos hvc]
                unfold pyTailSlice
                have hV0 : ¬ V = 0 := Nat.pos_iff_ne_zero.mp hV
                rw [if_neg hV0, List.length_drop]
                omega
              · rw [if_neg hvc]; omega
            refine ih _ (k + 1) hrest ?_ (Or.inr (getLast?_append_space _ s)) ch hch
            have hl : ((if V < cur.length then pyTailSlice V cur else cur) ++ s ++ [' ']).length
                = (if V < cur.length then pyTailSlice V cur else cur).length + s.length + 1 := by
              simp [Nat.add_assoc]
            omega

set_option maxRecDepth 100000

/-- The sentence list of the C1 counterexample: two sentences of
lengths 1000 and 950, both within the configured `chunk_size = 1000`. -/
def cexSentences : List (List Char) :=
  [List.replicate 1000 'a', List.replicate 950 'b']

/-- C1, counterexample.  The claim states that with `chunk_size > 0`
every chunk's text length is at most `chunk_size` except chunks wrapping
a single sentence whose own length exceeds `chunk_size`; hence whenever
every sentence is within `chunk_size`, every chunk would have to be.  At
the code's configured `chunk_size = 1000`, `overlap = 100`, two
sentences of lengths 1000 and 950 (both ≤ 1000) produce a second chunk
of length 1050: the buffer seeded with the 100 overlap characters plus
the 950-character sentence is flushed without any further length check. -/
theorem chunk_text_length_claim_cex :
    (∀ s ∈ cexSentences, s.length ≤ 1000) ∧
    ∃ ch ∈ chunk_text 1000 100 "D" cexSentences, 1000 < ch.text.length := by
  constructor
  · decide
  · exact ⟨⟨"D_1", "D",
      pyStrip (pyTailSlice 100 (List.replicate 1000 'a' ++ [' ']) ++
        List.replicate 950 'b' ++ [' '])⟩, by decide, by decide⟩

/-- C1, amended.  If every sentence has length at most `L` and the
overlap is positive, every chunk produced by `chunk_text` has text
length at most `max chunk_size (overlap + L)`; the `chunk_size` bound
alone holds neither for chunks wrapping an oversized sentence nor for
chunks whose buffer was seeded with the previous chunk's overlap
characters plus a sentence that did not fit. -/
theorem chunk_text_length_bound (N V L : Nat) (docId : String)
    (sentences : List (List Char)) (hV : 0 < V)
    (hs : ∀ s ∈ sentences, s.length ≤ L) :
    ∀ ch ∈ chunk_text N V docId sentences, ch.text.length ≤ max N (V + L) :=
  chunkLoop_text_bound N V L docId hV sentences [] 0 hs
    (by simp) (Or.inl rfl)

/-- Witness for `chunk_text_length_bound` at the code's configured
sizes and the two-sentence input of the counterexample. -/
theorem chunk_text_length_bound_witness :
    (0 < 100 ∧ ∀ s ∈ cexSentences, s.length ≤ 1000) ∧
    ∀ ch ∈ chunk_text 1000 100 "D" cexSentences, ch.text.length ≤ max 1000 (100 + 1000) :=
  ⟨⟨by decide, by decide⟩,
    chunk_text_length_bound 1000 100 1000 "D" cexSentences (by decide) (by decide)⟩

/-! ## C9 — query escaping -/

/-- The per-character escape after the replace passes for the characters
in `cs` have run. -/
def escUpTo (cs : List Char) (x : Char) : List Char :=
  if x ∈ cs then ['\\', x] else [x]

/-- Character-wise application of `escUpTo`. -/
def escAllBy (cs : List Char) : List Char → List Char
  | [] => []
  | x :: xs => escUpTo cs x ++ escAllBy cs xs

lemma escAllBy_nil_passes : ∀ s : List Char, escAllBy [] s = s := by
  intro s
  induction s with
  | nil => rfl
  | cons x xs ih => simp [escAllBy, escUpTo, ih]

lemma replaceChar_append (c : Char) (new a b : List Char) :
    replaceChar c new (a ++ b) = replaceChar c new a ++ replaceChar c new b := by
  induction a with
  | nil => rfl
  | cons x xs ih => simp [replaceChar, ih]

/-- One replace pass moves `escAllBy cs` to `escAllBy (cs ++ [d])`,
provided `d` was not processed before and the backslash pass came
first. -/
lemma replaceChar_escAllBy (cs : List Char) (d : Char) (hd : d ∉ cs)
    (hb : cs ≠ [] → '\\' ∈ cs) :
    ∀ s : List Char, replaceChar d ['\\', d] (escAllBy cs s) = escAllBy (cs ++ [d]) s := by
  intro s
  induction s with
  | nil => rfl
  | cons x xs ih =>
      show replaceChar d ['\\', d] (escUpTo cs x ++ escAllBy cs xs) = _
      rw [replaceChar_append, ih]
      have hx : replaceChar d ['\\', d] (escUpTo cs x) = escUpTo (cs ++ [d]) x := by
        by_cases hmem : x ∈ cs
        · have hcs : cs ≠ [] := by
            intro he; rw [he] at hmem; simp at hmem
          have hdb : d ≠ '\\' := by
            intro he; exact hd (he ▸ hb hcs)
          have hdx : d ≠ x := by
            intro he; exact hd (he ▸ hmem)
          simp [escUpTo, hmem, replaceChar, Ne.symm hdb, Ne.symm hdx]
        · by_cases hxd : x = d
          · subst hxd
            simp [escUpTo, hmem, replaceChar]
          · have hnot : x ∉ cs ++ [d] := by
              simp [hmem, hxd]
            simp [escUpTo, hmem, hnot, replaceChar, hxd]
      rw [hx]
      rfl

lemma foldl_escape_rest :
    ∀ (cs done : List Char), '\\' ∈ done → (done ++ cs).Nodup →
      ∀ s : List Char,
        cs.foldl (fun acc c => replaceChar c ['\\', c] acc) (escAllBy done s) =
          escAllBy (done ++ cs) s := by
  intro cs
  induction cs with
  | nil => intro done _ _ s; simp
  | cons d t ih =>
      intro done hb hnd s
      have hd : d ∉ done := by
        intro hmem
        have hdis := List.disjoint_of_nodup_append hnd
        exact absurd (by simp : d ∈ d :: t) (hdis hmem)
      show (d :: t).foldl (fun acc c => replaceChar c ['\\', c] acc) (escAllBy done s) = _
      rw [List.foldl_cons]
      rw [replaceChar_escAllBy done d hd (fun _ => hb)]
      have hb' : '\\' ∈ done ++ [d] := by simp [hb]
      have hnd' : ((done ++ [d]) ++ t).Nodup := by
        simpa [List.append_assoc] using hnd
      rw [ih (done ++ [d]) hb' hnd' s]
      simp

/-- The escaping loop acts character by character: every special
character is replaced by a backslash pair, everything else is kept. -/
theorem escapeQuery_eq_escAllBy (s : List Char) :
    escapeQuery s = escAllBy specialChars s := by
  have h1 : replaceChar '\\' ['\\', '\\'] s = escAllBy ['\\'] s := by
    have h := replaceChar_escAllBy [] '\\' (by simp) (by simp) s
    rw [escAllBy_nil_passes] at h
    simpa using h
  have h2 := foldl_escape_rest specialChars.tail ['\\'] (by simp) (by decide) s
  have h3 : specialChars = '\\' :: specialChars.tail := rfl
  simp only [escapeQuery]
  rw [h3, List.foldl_cons, h1, h2]
  simp

/-- A string in which every member of the special-character set occurs
only as the target of an immediately preceding escape backslash: it
parses as a sequence of units, each either an unescaped non-special
character or a backslash followed by the special character it escapes. -/
inductive ProperlyEscaped : List Char → Prop
  | nil : ProperlyEscaped []
  | plain (c : Char) (rest : List Char) :
      c ∉ specialChars → ProperlyEscaped rest → ProperlyEscaped (c :: rest)
  | pair (c : Char) (rest : List Char) :
      c ∈ specialChars → ProperlyEscaped rest → ProperlyEscaped ('\\' :: c :: rest)

/-- C9, confirmed.  For every input query, the escaped string passed to
the store contains no unescaped occurrence of any special character:
each special character in the output (backslash, both quotes, and the
operator characters) sits immediately after the backslash escaping it. -/
theorem escapeQuery_properly_escaped (s : List Char) :
    ProperlyEscaped (escapeQuery s) := by
  rw [escapeQuery_eq_escAllBy]
  induction s with
  | nil => exact ProperlyEscaped.nil
  | cons x xs ih =>
      show ProperlyEscaped (escUpTo specialChars x ++ escAllBy specialChars xs)
      by_cases hmem : x ∈ specialChars
      · rw [escUpTo, if_pos hmem]
        exact ProperlyEscaped.pair x _ hmem ih
      · rw [escUpTo, if_neg hmem]
        exact ProperlyEscaped.plain x _ hmem ih

/-! ## C7 — first-seen-wins deduplication -/

/-- Recursive form of the deduplication loop. -/
def dedupBy (seen : List String) : List TextChunk → List TextChunk
  | [] => []
  | c :: cs =>
      if c.chunk_id ∈ seen then dedupBy seen cs
      else c :: dedupBy (c.chunk_id :: seen) cs

/-- The seen-id set after running the loop. -/
def seenAfter (seen : List String) : List TextChunk → List String
  | [] => seen
  | c :: cs =>
      if c.chunk_id ∈ seen then seenAfter seen cs
      else seenAfter (c.chunk_id :: seen) cs

lemma dedupAppend_eq (l : List TextChunk) :
    ∀ (acc : List TextChunk) (seen : List String),
      dedupAppend acc seen l = (acc ++ dedupBy seen l, seenAfter seen l) := by
  induction l with
  | nil => intro acc seen; simp [dedupAppend, dedupBy, seenAfter]
  | cons c cs ih =>
      intro acc seen
      by_cases h : c.chunk_id ∈ seen
      · simp [dedupAppend, dedupBy, seenAfter, h, ih]
      · simp [dedupAppend, dedupBy, seenAfter, h, ih]

lemma dedupBy_append (l₁ l₂ : List TextChunk) :
    ∀ seen, dedupBy seen (l₁ ++ l₂) =
      dedupBy seen l₁ ++ dedupBy (seenAfter seen l₁) l₂ := by
  induction l₁ with
  | nil => intro seen; simp [dedupBy, seenAfter]
  | cons c cs ih =>
      intro seen
      by_cases h : c.chunk_id ∈ seen
      · simp [dedupBy, seenAfter, h, ih]
      · simp [dedupBy, seenAfter, h, ih]

lemma mergeResults_eq (results : List (List TextChunk)) :
    mergeResults results = dedupBy [] results.flatten := by
  suffices h : ∀ (acc : List TextChunk) (seen : List String),
      results.foldl (fun st chunks => dedupAppend st.1 st.2 chunks) (acc, seen) =
        (acc ++ dedupBy seen results.flatten, seenAfter seen results.flatten) by
    unfold mergeResults
    rw [h [] []]
    simp
  induction results with
  | nil => intro acc seen; simp [dedupBy, seenAfter]
  | cons l ls ih =>
      intro acc seen
      rw [List.foldl_cons, dedupAppend_eq]
      rw [ih]
      rw [List.flatten_cons, dedupBy_append]
      simp only [List.append_assoc]
      congr 1
      induction l generalizing seen with
      | nil => simp [seenAfter]
      | cons c cs ihl =>
          by_cases h : c.chunk_id ∈ seen
          · simp [seenAfter, h, ihl]
          · simp [seenAfter, h, ihl]

lemma dedupBy_sublist (l : List TextChunk) :
    ∀ seen, (dedupBy seen l).Sublist l := by
  induction l with
  | nil => intro seen; simp [dedupBy]
  | cons c cs ih =>
      intro seen
      by_cases h : c.chunk_id ∈ seen
      · rw [dedupBy, if_pos h]
        exact (ih seen).cons c
      · rw [dedupBy, if_neg h]
        exact (ih _).cons₂ c

lemma dedupBy_countP_seen (id : String) (l : List TextChunk) :
    ∀ seen, id ∈ seen →
      (dedupBy seen l).countP (fun c => c.chunk_id == id) = 0 := by
  induction l with
  | nil => intro seen _; simp [dedupBy]
  | cons c cs ih =>
      intro seen hid
      by_cases h : c.chunk_id ∈ seen
      · rw [dedupBy, if_pos h]
        exact ih seen hid
      · rw [dedupBy, if_neg h]
        have hne : (c.chunk_id == id) = false :=
          beq_eq_false_iff_ne.mpr (fun he => h (by rw [he]; exact hid))
        rw [List.countP_cons]
        have h0 := ih (c.chunk_id :: seen) (List.mem_cons_of_mem _ hid)
        simp [h0, hne]

lemma dedupBy_countP (id : String) (l : List TextChunk) :
    ∀ seen, id ∉ seen →
      (dedupBy seen l).countP (fun c => c.chunk_id == id) =
        min 1 (l.countP (fun c => c.chunk_id == id)) := by
  induction l with
  | nil => intro seen _; simp [dedupBy]
  | cons c cs ih =>
      intro seen hid
      by_cases h : c.chunk_id ∈ seen
      · have hne : (c.chunk_id == id) = false :=
          beq_eq_false_iff_ne.mpr (fun he => hid (by rw [← he]; exact h))
        rw [dedupBy, if_pos h, List.countP_cons, ih seen hid]
        simp [hne]
      · rw [dedupBy, if_neg h]
        by_cases hc : c.chunk_id = id
        · subst hc
          rw [List.countP_cons, List.countP_cons,
              dedupBy_countP_seen _ _ _ (List.mem_cons_self _ _)]
          simp
        · have hne : (c.chunk_id == id) = false := beq_eq_false_iff_ne.mpr hc
          have hid' : id ∉ c.chunk_id :: seen := by
            intro hmem
            rcases List.mem_cons.mp hmem with he | he
            · exact hc he.symm
            · exact hid he
          rw [List.countP_cons, List.countP_cons, ih _ hid']
          simp [hne]

lemma dedupBy_find? (id : String) (l : List TextChunk) :
    ∀ seen, id ∉ seen →
      (dedupBy seen l).find? (fun c => c.chunk_id == id) =
        l.find? (fun c => c.chunk_id == id) := by
  induction l with
  | nil => intro seen _; simp [dedupBy]
  | cons c cs ih =>
      intro seen hid
      by_cases h : c.chunk_id ∈ seen
      · have hne : (c.chunk_id == id) = false :=
          beq_eq_false_iff_ne.mpr (fun he => hid (by rw [← he]; exact h))
        rw [dedupBy, if_pos h, ih seen hid, List.find?_cons]
        simp [hne]
      · rw [dedupBy, if_neg h]
        by_cases hc : c.chunk_id = id
        · subst hc
          rw [List.find?_cons, List.find?_cons]
          simp
        · have hne : (c.chunk_id == id) = false := beq_eq_false_iff_ne.mpr hc
          have hid' : id ∉ c.chunk_id :: seen := by
            intro hmem
            rcases List.mem_cons.mp hmem with he | he
            · exact hc he.symm
            · exact hid he
          rw [List.find?_cons, List.find?_cons, ih _ hid']

/-- C7, confirmed.  The merged result of the per-query search results is
a sublist of their concatenation (query-issue order and within-query
relevance order preserved), and any `chunk_id` occurring in the raw
results occurs exactly once in the merge, as the raw concatenation's
first chunk carrying that id (first-seen-wins). -/
theorem mergeResults_dedup (results : List (List TextChunk)) (id : String) :
    (mergeResults results).Sublist results.flatten ∧
    ((∃ c ∈ results.flatten, c.chunk_id = id) →
      (mergeResults results).countP (fun c => c.chunk_id == id) = 1 ∧
      (mergeResults results).find? (fun c => c.chunk_id == id) =
        results.flatten.find? (fun c => c.chunk_id == id)) := by
  rw [mergeResults_eq]
  refine ⟨dedupBy_sublist _ _, fun hex => ⟨?_, dedupBy_find? _ _ _ (by simp)⟩⟩
  rw [dedupBy_countP _ _ _ (by simp)]
  have hpos : 0 < results.flatten.countP (fun c => c.chunk_id == id) := by
    rw [List.countP_pos_iff]
    obtain ⟨c, hc, hcid⟩ := hex
    exact ⟨c, hc, by simp [hcid]⟩
  omega

/-- A concrete chunk and result pair used to witness the retrieval
theorems: two queries both returning the same chunk. -/
def wChunk : TextChunk := ⟨"D_0", "D", "f", "i", "t"⟩

/-- The two per-query result lists of the witness scenario. -/
def wResults : List (List TextChunk) := [[wChunk], [wChunk]]

/-- Witness for `mergeResults_dedup`: two queries both returning the
same chunk merge to that chunk exactly once, at its first position. -/
theorem mergeResults_dedup_witness :
    (∃ c ∈ wResults.flatten, c.chunk_id = "D_0") ∧
    ((mergeResults wResults).countP (fun c => c.chunk_id == "D_0") = 1 ∧
     (mergeResults wResults).find? (fun c => c.chunk_id == "D_0") =
       wResults.flatten.find? (fun c => c.chunk_id == "D_0")) :=
  ⟨⟨wChunk, by simp [wResults], rfl⟩,
   (mergeResults_dedup wResults "D_0").2 ⟨wChunk, by simp [wResults], rfl⟩⟩

/-! ## C2 — per-query search limits -/

/-- An available LLM oracle classifying the query as `general` and
producing the enhanced single query `"enhanced"`. -/
def oC2 : LLMOracle :=
  { available := true
    intentOutcome := .parsed ⟨"general", some "kw", none, none⟩
    multiOutcome := .ok []
    enhanceOutcome := .ok "enhanced"
    genOutcome := .ok "" }

/-- C2, counterexample.  When the LLM service is available and a simple
intent leads to a single enhanced query, `search_document_chunks` passes
`limit // 1 + 1 = limit + 1` to the gateway, not the requested overall
limit: with `limit = 10` the one gateway call carries limit 11.  The
per-query limit equals the overall limit only in the LLM-unavailable
fallback branch, which bypasses the `search_queries` loop. -/
theorem per_query_limit_cex :
    (searchChunkCalls oC2 "q" 10).length = 1 ∧
    searchChunkCalls oC2 "q" 10 = [("enhanced", 11)] ∧ (11 : Nat) ≠ 10 :=
  ⟨by decide, by decide, by decide⟩

/-- C2, amended.  In the LLM-unavailable fallback the single gateway
call carries the requested overall limit; whenever the `search_queries`
list is bound (LLM available) every one of the `k` per-query gateway
calls — including the single-enhanced-query case `k = 1` — carries
`floor(overall_limit / k) + 1`. -/
theorem per_query_limit_spec (o : LLMOracle) (q : String) (limit : Nat) :
    (o.available = false → searchChunkCalls o q limit = [(q, limit)]) ∧
    (∀ qs, searchQueriesOf o q = some qs →
      searchChunkCalls o q limit = qs.map (fun s => (s, limit / qs.length + 1))) := by
  constructor
  · intro h
    simp [searchChunkCalls, searchQueriesOf, h]
  · intro qs hqs
    simp [searchChunkCalls, hqs]

/-- Witness for `per_query_limit_spec` at the concrete oracle of the
counterexample. -/
theorem per_query_limit_spec_witness :
    searchQueriesOf oC2 "q" = some ["enhanced"] ∧
    searchChunkCalls oC2 "q" 10 =
      ["enhanced"].map (fun s => (s, 10 / (["enhanced"] : List String).length + 1)) :=
  ⟨by decide, (per_query_limit_spec oC2 "q" 10).2 ["enhanced"] (by decide)⟩

/-! ## C3 — index-write result shape -/

/-- The chunk used in the storage scenarios. -/
def c3chunk : PyChunk := ⟨"d_0", "d", ['t']⟩

/-- C3, counterexample.  When the store reports a per-row error the
gateway returns `{"success": False, "error": ...}` carrying the store's
error detail but *no* `chunks_count` key: the failure result does not
report how many rows were attempted. -/
theorem store_chunks_count_cex :
    store_chunks_in_bigquery (.errors ["row 0: invalid"]) "b" "m" "f" "i" [c3chunk] =
      { success := false, chunks_count := none,
        error := some (formatInsertErrors ["row 0: invalid"]) } ∧
    (store_chunks_in_bigquery (.errors ["row 0: invalid"]) "b" "m" "f" "i"
        [c3chunk]).chunks_count = none :=
  ⟨rfl, rfl⟩

/-- C3, amended.  Any reported row error yields an overall-failure
result carrying the store's partial-failure detail (but no attempted-row
count); an empty error list yields success with the count of rows
written; a raised exception yields failure carrying its message. -/
theorem store_chunks_result_spec (outcome : InsertOutcome)
    (bucket m f i : String) (chunks : List PyChunk) :
    (∀ es, outcome = .errors es → es ≠ [] →
      store_chunks_in_bigquery outcome bucket m f i chunks =
        ⟨false, none, some (formatInsertErrors es)⟩) ∧
    (outcome = .errors [] →
      store_chunks_in_bigquery outcome bucket m f i chunks =
        ⟨true, some chunks.length, none⟩) ∧
    (∀ e, outcome = .raises e →
      store_chunks_in_bigquery outcome bucket m f i chunks = ⟨false, none, some e⟩) := by
  refine ⟨?_, ?_, ?_⟩
  · intro es ho hes
    subst ho
    simp [store_chunks_in_bigquery, hes]
  · intro ho
    subst ho
    simp [store_chunks_in_bigquery, buildRows]
  · intro e ho
    subst ho
    simp [store_chunks_in_bigquery]

/-- Witness for `store_chunks_result_spec`: an error-free insert of one
chunk reports success with count 1. -/
theorem store_chunks_result_spec_witness :
    (InsertOutcome.errors [] = InsertOutcome.errors []) ∧
    store_chunks_in_bigquery (.errors []) "b" "m" "f" "i" [c3chunk] =
      ⟨true, some ([c3chunk] : List PyChunk).length, none⟩ :=
  ⟨rfl, (store_chunks_result_spec (.errors []) "b" "m" "f" "i" [c3chunk]).2.1 rfl⟩

/-! ## C4 — intent category set -/

/-- An available LLM oracle whose model output parses to an intent
object with the out-of-set category `"vibes"`. -/
def oC4 : LLMOracle :=
  { available := true
    intentOutcome := .parsed ⟨"vibes", some "kw", none, none⟩
    multiOutcome := .ok []
    enhanceOutcome := .ok ""
    genOutcome := .ok "" }

/-- C4, counterexample.  `analyze_query_intent` returns the parsed model
output without validating its category: when the model emits valid JSON
whose `type` is `"vibes"`, the classification result carries a category
outside the fixed six-element set. -/
theorem intent_category_cex :
    (analyze_query_intent oC4 "any question").type ∉ validCategories := by
  decide

/-- C4, amended.  The returned category lies in the fixed set
`{comparison, pattern, timeline, entity, relationship, general}` on
every fallback path (unavailable model, raised call, unparsable output),
and whenever the parsed model output itself carries an in-set category;
the classifier performs no validation of its own, so the guarantee is
conditional on the parsed output. -/
theorem intent_category_spec (o : LLMOracle) (q : String)
    (hp : ∀ d, o.intentOutcome = .parsed d → d.type ∈ validCategories) :
    (analyze_query_intent o q).type ∈ validCategories := by
  unfold analyze_query_intent
  by_cases ha : o.available
  · simp only [ha, Bool.not_true, Bool.false_eq_true, if_false]
    cases ho : o.intentOutcome with
    | raises e => simp [fallbackIntent, validCategories]
    | notJson => simp [fallbackIntent, validCategories]
    | jsonNoType => simp [fallbackIntent, validCategories]
    | parsed d => exact hp d ho
  · simp only [Bool.not_eq_true] at ha
    simp [ha, fallbackIntent, validCategories]

/-- Witness for `intent_category_spec`: with an unparsable model output
the category is the in-set fallback `general`. -/
theorem intent_category_spec_witness :
    (analyze_query_intent ⟨true, .notJson, .ok [], .ok "", .ok ""⟩ "q").type ∈
      validCategories :=
  intent_category_spec ⟨true, .notJson, .ok [], .ok "", .ok ""⟩ "q"
    (fun _ hd => IntentOutcome.noConfusion hd)

/-! ## C5 — synthesizer short-circuit -/

/-- C5, confirmed.  With an empty retrieved-chunk list the synthesis
stage of `chat_with_documents` returns the fixed no-information message
and makes zero calls to the generative model (`generate_response` is
never entered). -/
theorem chat_empty_short_circuit (o : LLMOracle) (q : String)
    (history : List ChatMessage) :
    chatAnswerStage o q [] history = (noInfoMsg, 0) := by
  simp [chatAnswerStage]

/-! ## C6 — classifier fallback -/

/-- C6, confirmed.  Whenever the model is unavailable or its output
cannot be used as the expected structure (the call raised, the text was
not JSON, or the parsed JSON had no usable `type` field),
`analyze_query_intent` returns exactly
`{"type": "general", "search_terms": query}`, and (being a total
function of the oracle) never raises past its boundary. -/
theorem classifier_fallback (o : LLMOracle) (q : String)
    (h : o.available = false ∨ o.intentOutcome.failed = true) :
    analyze_query_intent o q = fallbackIntent q := by
  unfold analyze_query_intent
  rcases h with h | h
  · simp [h]
  · by_cases ha : o.available
    · simp only [ha, Bool.not_true, Bool.false_eq_true, if_false]
      cases ho : o.intentOutcome with
      | raises e => rfl
      | notJson => rfl
      | jsonNoType => rfl
      | parsed d =>
          rw [ho] at h
          exact absurd h (by simp [IntentOutcome.failed])
    · simp only [Bool.not_eq_true] at ha
      simp [ha]

/-- Witness for `classifier_fallback`: an unavailable model yields the
exact fallback intent. -/
theorem classifier_fallback_witness :
    ((⟨false, .notJson, .ok [], .ok "", .ok ""⟩ : LLMOracle).available = false ∨
      (⟨false, .notJson, .ok [], .ok "", .ok ""⟩ : LLMOracle).intentOutcome.failed = true) ∧
    analyze_query_intent ⟨false, .notJson, .ok [], .ok "", .ok ""⟩ "what happened" =
      fallbackIntent "what happened" :=
  ⟨Or.inl rfl,
    classifier_fallback ⟨false, .notJson, .ok [], .ok "", .ok ""⟩ "what happened"
      (Or.inl rfl)⟩

/-! ## C8 — search failures degrade to empty results -/

/-- C8, confirmed.  If the store raises while executing the search, the
gateway returns the empty list instead of propagating (the embedding is
a total function: no exception crosses its boundary). -/
theorem search_error_empty (store : StoreBehaviour) (q : String) (limit : Nat)
    (e : String)
    (h : store (String.mk (escapeQuery q.data)) limit = .error e) :
    search_chunks store q limit = [] := by
  simp [search_chunks, h]

/-- A store that always raises. -/
def errStore : StoreBehaviour := fun _ _ => .error "network error"

/-- Witness for `search_error_empty` on an always-raising store and the
spec's example query. -/
theorem search_error_empty_witness :
    errStore (String.mk (escapeQuery ("what about (theft)?").data)) 10 =
      .error "network error" ∧
    search_chunks errStore "what about (theft)?" 10 = [] :=
  ⟨rfl, search_error_empty errStore "what about (theft)?" 10 "network error" rfl⟩

/-! ## C10 — ingestion atomicity for the primary record -/

/-- The failure result dictionary of `create_document`. -/
def failResult (e : String) : CreateResult :=
  { success := false, error := some e, document := none, bigquery_details := none }

/-- C10, confirmed.  A failing blob-store write, PDF extraction or
ledger write makes `create_document` return a failure result with the
database exactly as before (no row added, nothing committed); when all
three succeed the row is added and committed and the call returns
success carrying the (possibly degraded) BigQuery details, whatever the
side-storage outcome was. -/
theorem create_document_atomic (o : IngestOracle) (db : Db) (uid : Nat)
    (fn addr : String) :
    (∀ e, o.ipfs = .error e → create_document o db uid fn addr = (db, failResult e)) ∧
    (∀ ih e, o.ipfs = .ok ih → o.pdf = .error e →
      create_document o db uid fn addr = (db, failResult e)) ∧
    (∀ ih x e, o.ipfs = .ok ih → o.pdf = .ok x → o.chain = .error e →
      create_document o db uid fn addr = (db, failResult e)) ∧
    (∀ ih x t, o.ipfs = .ok ih → o.pdf = .ok x → o.chain = .ok t →
      create_document o db uid fn addr =
        ((db.add ⟨fn, ih, t, uid, addr, x⟩).commit,
          { success := true, error := none,
            document := some ⟨fn, ih, t, uid, addr, x⟩,
            bigquery_details := some (bigqueryResult o) })) := by
  refine ⟨?_, ?_, ?_, ?_⟩
  · intro e he
    unfold create_document
    rw [he]
    rfl
  · intro ih e h1 h2
    unfold create_document
    rw [h1, h2]
    rfl
  · intro ih x e h1 h2 h3
    unfold create_document
    rw [h1, h2, h3]
    rfl
  · intro ih x t h1 h2 h3
    unfold create_document
    rw [h1, h2, h3]

/-- An ingestion oracle where the three primary collaborators succeed
and the BigQuery side storage reports a failure. -/
def oC10 : IngestOracle :=
  { ipfs := .ok "Qm1", pdf := .ok "extracted", chain := .ok "0xabc",
    bqConfigured := true, bqPhase := .returns false 0 (some "insert failed") }

/-- Witness for `create_document_atomic`: with all three primary steps
succeeding and the side indexing failing, the row is committed and the
call still succeeds. -/
theorem create_document_atomic_witness :
    (oC10.ipfs = .ok "Qm1" ∧ oC10.pdf = .ok "extracted" ∧ oC10.chain = .ok "0xabc") ∧
    create_document oC10 ⟨[], []⟩ 7 "f.pdf" "0xaddr" =
      ((Db.add ⟨[], []⟩ ⟨"f.pdf", "Qm1", "0xabc", 7, "0xaddr", "extracted"⟩).commit,
        { success := true, error := none,
          document := some ⟨"f.pdf", "Qm1", "0xabc", 7, "0xaddr", "extracted"⟩,
          bigquery_details := some (bigqueryResult oC10) }) :=
  ⟨⟨rfl, rfl, rfl⟩,
    (create_document_atomic oC10 ⟨[], []⟩ 7 "f.pdf" "0xaddr").2.2.2
      "Qm1" "extracted" "0xabc" rfl rfl rfl⟩

end BlockPatrol
